import Mathlib

/-!
Verification of the gitcollector core against its specification.

The Go sources are shallowly embedded: pure fragments become Lean
functions, the channel/goroutine plumbing is abstracted away and only the
state transformations the claims speak about are modelled. Go `uint64`
counters are naturals reduced modulo `2 ^ 64`; Go `int` quantities that the
code clamps to be nonnegative are naturals; epoch arithmetic that may go
negative uses `Int`. Go strings are Lean `String`s, and the handful of
`strings`-package helpers the code uses (`TrimSuffix`, `Split`, `ToLower`)
are re-implemented below on the character list so that all definitions
evaluate inside the kernel.
-/

/- ------------------------------------------------------------------ -/
/- Go `strings` package helpers used by the embedded code.            -/
/- ------------------------------------------------------------------ -/

/-- Embedding of Go `strings.HasSuffix`. -/
def strEndsWith (s suffix : String) : Bool :=
  suffix.data.isSuffixOf s.data

/-- Embedding of Go `strings.TrimSuffix`: removes one trailing copy of
`suffix` when present, otherwise returns `s` unchanged. -/
def trimSuffix (s suffix : String) : String :=
  if strEndsWith s suffix then ⟨s.data.take (s.data.length - suffix.data.length)⟩ else s

/-- Splitting a character list at every occurrence of `sep`. -/
def splitCharAux (sep : Char) : List Char → List (List Char)
  | [] => [[]]
  | c :: cs =>
    match splitCharAux sep cs with
    | g :: gs => if c = sep then [] :: g :: gs else (c :: g) :: gs
    | [] => [[]]

/-- Embedding of Go `strings.Split` with a one-character separator. -/
def splitChar (s : String) (sep : Char) : List String :=
  (splitCharAux sep s.data).map fun g => ⟨g⟩

/-- Embedding of Go `strings.ToLower` (ASCII, as used on organization
names). -/
def strToLower (s : String) : String :=
  ⟨s.data.map Char.toLower⟩

/- ------------------------------------------------------------------ -/
/- Data model: library.Job (src/library/job.go and its later revision) -/
/- ------------------------------------------------------------------ -/

/-- An already-parsed remote endpoint URL, split into host and path (the
path carries no leading slash). The URL-to-endpoint parser itself lives in
the external go-git transport package and is not part of this repository;
endpoints enter the model already parsed. -/
structure Endpoint where
  host : String
  path : String
deriving DecidableEq

/-- Embedding of `library.JobType` (src/library/job_test.go:509, the
`JobType`-bearing revision of library/job.go staged in that file):
`type JobType uint8`. The code only ever constructs and compares the two
constants below, so the `uint8` width plays no role and values are plain
naturals. -/
abbrev JobType : Type := Nat

/-- The constant `library.JobDownload = 1 << iota`, i.e. 1
(src/library/job_test.go:513). -/
def JobDownload : JobType := 1

/-- The constant `library.JobUpdate`, the next `1 << iota` value, i.e. 2
(src/library/job_test.go:515). -/
def JobUpdate : JobType := 2

/-- The fields of `library.Job` (src/library/job_test.go:519-530: `ID`,
`Type`, `Lib`, `Endpoints`, `TempFS`, `LocationID`, `AllowUpdate`,
`AuthToken`, `ProcessFn`, `Logger`) that the embedded operations read:
the type tag, the endpoints, the location id and the `AllowUpdate` flag.
The injected collaborator handles (lib, temp fs, auth lookup, logger) and
the job id play no role in the claims and are dropped; endpoints are
modelled already parsed (see `Endpoint`). -/
structure Job where
  type : JobType
  endpoints : List Endpoint
  locationID : Option String := none
  allowUpdate : Bool := false
deriving DecidableEq

/- ------------------------------------------------------------------ -/
/- library utils (src/library/utils.go)                               -/
/- ------------------------------------------------------------------ -/

/-- Modelled from the spec: `borges.NewRepositoryID` of the external
go-borges dependency (not part of this repository). Per its documented
canonical form ("git@github.com:src-d/go-borges becomes
github.com/src-d/go-borges.git") it joins host and path and appends
".git" when the path does not already end with it. -/
def borgesNewRepositoryID (e : Endpoint) : String :=
  let p := if strEndsWith e.path ".git" then e.path else e.path ++ ".git"
  e.host ++ "/" ++ p

/-- Embedding of `library.NewRepositoryID` (src/library/utils.go:21-28):
trims one ".git" suffix from the borges repository id. -/
def NewRepositoryID (e : Endpoint) : String :=
  trimSuffix (borgesNewRepositoryID e) ".git"

/-- Embedding of `library.GetOrgFromEndpoint` (src/library/utils.go:31-35):
`strings.Split(id, "/")[1]`, lower-cased; the segment after the host. The
Go expression panics when the id has no slash; our ids always contain the
host/path separator, and the total `getD` default is never reached. -/
def GetOrgFromEndpoint (e : Endpoint) : String :=
  strToLower ((splitChar (NewRepositoryID e) '/').getD 1 "")

/- ------------------------------------------------------------------ -/
/- Metrics collector (src/metrics/metrics.go)                         -/
/- ------------------------------------------------------------------ -/

/-- Modulus of Go `uint64`: the collector's counters wrap at `2 ^ 64`. -/
def u64Mod : Nat := 2 ^ 64

/-- Go `uint64` increment, with wraparound. -/
def incr64 (x : Nat) : Nat := (x + 1) % u64Mod

/-- The four counters of `metrics.Collector`
(src/metrics/metrics.go:26-42). -/
structure Counters where
  successDownloadCount : Nat
  successUpdateCount : Nat
  failCount : Nat
  discoverCount : Nat
deriving DecidableEq

/-- Event kind constants (src/metrics/metrics.go:88-92, an iota block). -/
def successKind : Nat := 0

/-- Event kind constant `failKind`. -/
def failKind : Nat := 1

/-- Event kind constant `discoverKind`. -/
def discoverKind : Nat := 2

/-- Embedding of `(*Collector).modifyMetrics`
(src/metrics/metrics.go:220-244): a Success event on a Download job bumps
`successDownloadCount`, on any other job type bumps `successUpdateCount`
once per endpoint; a Fail event bumps `failCount` once per endpoint; a
Discover event bumps `discoverCount` only for Download jobs; any other
kind is an error. -/
def modifyMetrics (c : Counters) (job : Job) (kind : Nat) : Except String Counters :=
  if kind = successKind then
    if job.type = JobDownload then
      .ok { c with successDownloadCount := incr64 c.successDownloadCount }
    else
      .ok (job.endpoints.foldl
        (fun cc _ => { cc with successUpdateCount := incr64 cc.successUpdateCount }) c)
  else if kind = failKind then
    .ok (job.endpoints.foldl
      (fun cc _ => { cc with failCount := incr64 cc.failCount }) c)
  else if kind = discoverKind then
    if job.type = JobDownload then
      .ok { c with discoverCount := incr64 c.discoverCount }
    else
      .ok c
  else
    .error "wrong metric type found"

/-- Embedding of `(*Collector).sendMetric` (src/metrics/metrics.go:246-259
and 597-601, two equivalent revisions): `batch` is the per-event batch
counter and `elapsed` the time since the last flush; flush when the batch
is full, or when the sync time has elapsed and the batch is non-empty. -/
def sendMetric (batchSize syncTime batch elapsed : Nat) : Bool :=
  let fullBatch := decide (batch ≥ batchSize)
  let syncTimeout := decide (elapsed ≥ syncTime)
  fullBatch || (syncTimeout && decide (batch > 0))

/-- State of `triageJob`'s loop (src/metrics/metrics.go:351-367). In the
Go source `j = &(*lj)` takes the address of a dereference, which yields
the original pointer `lj` again (`gofmt -s` simplifies `&*p` to `p`), so
every value stored in the returned map aliases the one job `lj`, and the
following `j.Endpoints = []string{}` resets that shared job's endpoint
slice. The loop state is therefore the insertion-ordered key set of the
map together with the single shared endpoint slice. The loop header
`for _, ep := range lj.Endpoints` iterates over the slice captured before
the first reset, i.e. over the original endpoint list. -/
structure TriageState where
  orgs : List String
  sharedEndpoints : List Endpoint
deriving DecidableEq

/-- One iteration of the `triageJob` loop body for endpoint `ep`. -/
def triageStep (st : TriageState) (ep : Endpoint) : TriageState :=
  let org := GetOrgFromEndpoint ep
  if st.orgs.contains org then
    { st with sharedEndpoints := st.sharedEndpoints ++ [ep] }
  else
    { orgs := st.orgs ++ [org], sharedEndpoints := [ep] }

/-- Embedding of `triageJob` (src/metrics/metrics.go:351-367): the keys of
the produced map, and the endpoint list that every key maps to (all map
values alias the same job, see `TriageState`). -/
def triageJob (eps : List Endpoint) : TriageState :=
  eps.foldl triageStep ⟨[], []⟩

/-- The partition `triageJob` is specified to compute ("partitions incoming
jobs per organization"): the endpoints of `eps` whose organization is
`org`, in order. -/
def triageJobSpec (org : String) (eps : List Endpoint) : List Endpoint :=
  eps.filter (fun ep => GetOrgFromEndpoint ep = org)

/- ------------------------------------------------------------------ -/
/- Worker (src/worker.go)                                             -/
/- ------------------------------------------------------------------ -/

/-- A metrics event reported by a worker. -/
inductive WorkerEvent
  | success (j : Job)
  | fail (j : Job)
deriving DecidableEq

/-- Embedding of the reporting goroutine body of `(*Worker).consumeJob`
(src/worker.go:55-66): once `job.Process` has run to completion with
result `processErr` (`none` embeds a nil Go error), the events reported
to the metrics collector. The surrounding select only decides whether the
worker waits for this completion; under the claim's assumption that
`Process` completes and no immediate cancellation discards the job, this
body is the entire reporting behaviour. -/
def consumeJobReport (job : Job) (processErr : Option String) : List WorkerEvent :=
  match processErr with
  | some _ => [.fail job]
  | none => [.success job]

/- ------------------------------------------------------------------ -/
/- Worker pool (src/worker_pool.go)                                   -/
/- ------------------------------------------------------------------ -/

/-- The worker slice of `WorkerPool` (src/worker_pool.go:8-14); workers
are abstracted to identifiers handed out by `nextID`. -/
structure WorkerPool where
  workers : List Nat
  nextID : Nat
deriving DecidableEq

/-- Result of a `SetWorkers` call: the new pool, how many fresh workers
were spawned, and which workers were signalled `Stop(false)` before the
call returned. -/
structure ResizeTrace where
  pool : WorkerPool
  spawned : Nat
  stopped : List Nat
deriving DecidableEq

/-- Embedding of `(*WorkerPool).add` (src/worker_pool.go:68-79): spawns
`n` new workers and appends them to the slice. -/
def WorkerPool.add (p : WorkerPool) (n : Nat) : WorkerPool :=
  { workers := p.workers ++ (List.range n).map (fun i => i + p.nextID),
    nextID := p.nextID + n }

/-- Embedding of `(*WorkerPool).remove` (src/worker_pool.go:81-99): stops
the last `n` workers with `Stop(false)`, truncates the slice, and waits
for the stopped workers. -/
def WorkerPool.remove (p : WorkerPool) (n : Nat) : WorkerPool × List Nat :=
  let i := p.workers.length - n
  ({ p with workers := p.workers.take i }, p.workers.drop i)

/-- Embedding of `(*WorkerPool).SetWorkers` (src/worker_pool.go:50-66):
clamp a negative request to zero, then grow or shrink to the requested
size. -/
def WorkerPool.SetWorkers (p : WorkerPool) (n : Int) : ResizeTrace :=
  let m := if n < 0 then 0 else n.toNat
  let cur := p.workers.length
  if m = cur then ⟨p, 0, []⟩
  else if cur < m then ⟨p.add (m - cur), m - cur, []⟩
  else
    let r := p.remove (cur - m)
    ⟨r.1, 0, r.2⟩

/-- Embedding of `(*WorkerPool).Size` (src/worker_pool.go:42-47). -/
def WorkerPool.Size (p : WorkerPool) : Nat := p.workers.length

/- ------------------------------------------------------------------ -/
/- Downloader (src/downloader/download.go)                            -/
/- ------------------------------------------------------------------ -/

/-- Abstract contents of the borges siva library: repository id mapped to
the id of the location holding it. Embeds what `lib.Has(repoID)` consults. -/
structure SivaLibrary where
  repos : List (String × String)
deriving DecidableEq

/-- Embedding of the `lib.Has(repoID)` lookup used by `Download`
(src/downloader/download.go:58): the location id of the repository when
present. -/
def libHas (lib : SivaLibrary) (id : String) : Option String :=
  (lib.repos.find? (fun pr => pr.1 = id)).map Prod.snd

/-- Errors `Download` can return in the embedded fragment. -/
inductive DownloadErr
  | errNotDownloadJob
  | errRepoAlreadyExists (id : String)
  | updateErr (msg : String)
  | downloadErr (msg : String)
deriving DecidableEq

/-- Embedding of `Download` (src/downloader/download.go:330-393, the
revision matching the `JobType`-bearing `library.Job`; the earlier
revision at lines 34-90 branches identically on its update flag, only
without the type-tag rewrite). The two external collaborators are
parameters: `updateFn` is `updater.Update` (src/unnamed/part_001:158-242)
applied to the rewritten job, returning its error if any; `dlRepo` is
`downloadRepository`, which may extend the library with the fetched
repository. Endpoints enter the model already parsed, so the
`library.NewRepositoryID` parse-error path cannot arise; the
wrong-library-type and nil-handle guards are likewise outside the model.
`none` in the first component embeds a nil Go error. -/
def Download
    (updateFn : Job → Option DownloadErr)
    (dlRepo : SivaLibrary → String → Option DownloadErr × SivaLibrary)
    (lib : SivaLibrary) (job : Job) : Option DownloadErr × SivaLibrary :=
  if job.type ≠ JobDownload then (some .errNotDownloadJob, lib)
  else
    match job.endpoints with
    | [] => (some .errNotDownloadJob, lib)
    | endpoint :: _ =>
      let repoID := NewRepositoryID endpoint
      match libHas lib repoID with
      | some locID =>
        if job.allowUpdate then
          (updateFn { job with type := JobUpdate, locationID := some locID }, lib)
        else
          (some (.errRepoAlreadyExists repoID), lib)
      | none => dlRepo lib repoID

/- ------------------------------------------------------------------ -/
/- Discovery provider (src/discovery/provider.go, src/unnamed/part_011) -/
/- ------------------------------------------------------------------ -/

/-- Pagination state of `orgReposIter` (src/discovery/provider.go:220-227):
the requested page, the page size and the checkpoint index. -/
structure IterState where
  page : Nat
  perPage : Nat
  checkpoint : Nat
deriving DecidableEq

/-- Result of one `requestRepos` call: the new pagination state, the
records buffered for yielding, and whether `ErrNewRepositoriesNotFound`
was returned (last page). -/
structure RequestResult where
  state : IterState
  buffered : List Nat
  noNewRepos : Bool
deriving DecidableEq

/-- Embedding of the success path of `(*orgReposIter).requestRepos`
(src/discovery/provider.go:284-327): `repos` is the page the upstream
returned (records abstracted to numbers) and `nextPage` its pagination
hint (`0` meaning last page). The skipped prefix, checkpoint update and
page bookkeeping follow the source line by line. -/
def requestRepos (st : IterState) (repos : List Nat) (nextPage : Nat) : RequestResult :=
  let bufRepos :=
    if 0 < st.checkpoint then
      if repos.length < st.checkpoint then repos.drop 0 else repos.drop st.checkpoint
    else repos
  let ckpt := if repos.length < st.perPage then repos.length else st.checkpoint
  if nextPage = 0 then
    let pg := if repos.length = st.perPage then st.page + 1 else st.page
    ⟨⟨pg, st.perPage, ckpt⟩, bufRepos, true⟩
  else
    ⟨⟨nextPage, st.perPage, ckpt⟩, bufRepos, false⟩

/-- Nanoseconds in a second (Go `time.Second`). -/
def nanosPerSecond : Nat := 1000000000

/-- Nanoseconds in an hour (Go `1 * time.Hour`). -/
def hourNs : Int := 3600 * 1000000000

/-- Embedding of `timeToRetry` (src/discovery/provider.go:329-343). `now`
and `resetTime` are epoch seconds; the result is the wait in nanoseconds
(a Go `time.Duration`), with Go's truncated integer division — on the
nonnegative operands reached here it coincides with `Nat` division. -/
def timeToRetry (now resetTime : Int) (remaining limit : Nat) : Nat :=
  let timeToReset : Int := (resetTime - now) * (nanosPerSecond : Int)
  if timeToReset < 0 ∨ hourNs < timeToReset then
    hourNs.toNat / (limit + 1)
  else
    timeToReset.toNat / (remaining + 1)

/-- The three URLs of a `github.Repository` that the providers consult,
plus its full name (used in error messages). -/
structure GHRepo where
  htmlURL : String
  gitURL : String
  sshURL : String
  fullName : String
deriving DecidableEq

/-- Embedding of `getEndpoints` (src/discovery/provider.go:180-200): every
non-empty URL among HTML, git and SSH, in that order; an error when all
three are empty. -/
def getEndpoints (r : GHRepo) : Except String (List String) :=
  let endpoints := [r.htmlURL, r.gitURL, r.sshURL].filter (fun s => s ≠ "")
  if endpoints.length < 1 then .error r.fullName else .ok endpoints

/-- Embedding of `GetGHEndpoint` (src/unnamed/part_011:225-246): the first
non-empty URL among HTML, git and SSH; an error when all are empty. -/
def GetGHEndpoint (r : GHRepo) : Except String String :=
  match [r.htmlURL, r.gitURL, r.sshURL].find? (fun s => s ≠ "") with
  | some ep => .ok ep
  | none => .error r.fullName

/-- A job as built by the discovery paths, before scheduling enriches it:
just the raw endpoint URL strings. -/
structure DiscoveryJob where
  endpoints : List String
deriving DecidableEq

/-- Job construction in `(*GHProvider).Start`
(src/discovery/provider.go:148-156): the job carries all endpoints
returned by `getEndpoints`. -/
def mkProviderJob (r : GHRepo) : Except String DiscoveryJob :=
  (getEndpoints r).map fun eps => ⟨eps⟩

/-- Job construction in `AdvertiseGHRepositoriesOnJobQueue`
(src/unnamed/part_003:67-77): the job carries the single endpoint from
`GetGHEndpoint`. -/
def mkAdvertiseJob (r : GHRepo) : Except String DiscoveryJob :=
  (GetGHEndpoint r).map fun ep => ⟨[ep]⟩

/- ------------------------------------------------------------------ -/
/- Theorems                                                           -/
/- ------------------------------------------------------------------ -/

theorem u64Mod_pos : 0 < u64Mod := by decide

theorem foldl_incr_successUpdate (l : List Endpoint) (c : Counters)
    (h : c.successUpdateCount < u64Mod) :
    l.foldl (fun cc _ => { cc with successUpdateCount := incr64 cc.successUpdateCount }) c
      = { c with successUpdateCount := (c.successUpdateCount + l.length) % u64Mod } := by
  induction l generalizing c with
  | nil =>
    show c = { c with successUpdateCount := (c.successUpdateCount + 0) % u64Mod }
    rw [Nat.add_zero, Nat.mod_eq_of_lt h]
  | cons a t ih =>
    rw [List.foldl_cons, ih _ (Nat.mod_lt _ u64Mod_pos)]
    have hm : (incr64 c.successUpdateCount + t.length) % u64Mod
        = (c.successUpdateCount + (a :: t).length) % u64Mod := by
      unfold incr64
      rw [Nat.mod_add_mod, List.length_cons]
      congr 1
      omega
    simp only [hm]

theorem foldl_incr_fail (l : List Endpoint) (c : Counters)
    (h : c.failCount < u64Mod) :
    l.foldl (fun cc _ => { cc with failCount := incr64 cc.failCount }) c
      = { c with failCount := (c.failCount + l.length) % u64Mod } := by
  induction l generalizing c with
  | nil =>
    show c = { c with failCount := (c.failCount + 0) % u64Mod }
    rw [Nat.add_zero, Nat.mod_eq_of_lt h]
  | cons a t ih =>
    rw [List.foldl_cons, ih _ (Nat.mod_lt _ u64Mod_pos)]
    have hm : (incr64 c.failCount + t.length) % u64Mod
        = (c.failCount + (a :: t).length) % u64Mod := by
      unfold incr64
      rw [Nat.mod_add_mod, List.length_cons]
      congr 1
      omega
    simp only [hm]

/-- C1 (amended): a Success event on a Download job increments `downloaded`
by exactly 1; a Success event on an Update job increments `updated` by the
length of the endpoints list; a Fail event increments `failed` by the
length of the endpoints list — zero when the list is empty, not 1; a
Discover event increments `discovered` by 1 for a Download job and changes
nothing for an Update job; in each case every other counter is unchanged.
Counters are `uint64`, so increments are modulo `2 ^ 64`; the hypotheses
say the touched counter is a representable `uint64` value. -/
theorem C1_modifyMetrics_counts (c : Counters) (eps : List Endpoint)
    (loc : Option String) (upd : Bool)
    (hsu : c.successUpdateCount < u64Mod) (hf : c.failCount < u64Mod) :
    modifyMetrics c ⟨JobDownload, eps, loc, upd⟩ successKind
        = .ok { c with successDownloadCount := (c.successDownloadCount + 1) % u64Mod } ∧
    modifyMetrics c ⟨JobUpdate, eps, loc, upd⟩ successKind
        = .ok { c with successUpdateCount := (c.successUpdateCount + eps.length) % u64Mod } ∧
    (∀ t : JobType, modifyMetrics c ⟨t, eps, loc, upd⟩ failKind
        = .ok { c with failCount := (c.failCount + eps.length) % u64Mod }) ∧
    modifyMetrics c ⟨JobDownload, eps, loc, upd⟩ discoverKind
        = .ok { c with discoverCount := (c.discoverCount + 1) % u64Mod } ∧
    modifyMetrics c ⟨JobUpdate, eps, loc, upd⟩ discoverKind = .ok c := by
  refine ⟨?_, ?_, fun t => ?_, ?_, ?_⟩
  · simp [modifyMetrics, successKind, JobDownload, incr64]
  · simp only [modifyMetrics, successKind]
    simp [JobUpdate, JobDownload]
    exact foldl_incr_successUpdate eps c hsu
  · have h : modifyMetrics c ⟨t, eps, loc, upd⟩ failKind
        = .ok (eps.foldl (fun cc _ => { cc with failCount := incr64 cc.failCount }) c) := by
      simp [modifyMetrics, successKind, failKind]
    rw [h]
    exact congrArg Except.ok (foldl_incr_fail eps c hf)
  · simp [modifyMetrics, successKind, failKind, discoverKind, JobDownload, incr64]
  · simp [modifyMetrics, successKind, failKind, discoverKind, JobUpdate, JobDownload]

/-- C1 counterexample: a Fail event on a job whose endpoints list is empty
leaves `failed` (and everything else) unchanged — the code increments by
the list length, which is zero, while the claim demands an increment of 1
for the empty list. -/
theorem C1_fail_empty_counterexample :
    modifyMetrics ⟨3, 4, 5, 6⟩ ⟨JobUpdate, [], none, false⟩ failKind = .ok ⟨3, 4, 5, 6⟩ ∧
    (5 : Nat) ≠ 5 + 1 := by
  exact ⟨rfl, by decide⟩

/-- Witness for C1: a Fail event on a one-endpoint job takes `failed` from
0 to 1. -/
theorem C1_modifyMetrics_counts_witness :
    modifyMetrics ⟨0, 0, 0, 0⟩ ⟨JobUpdate, [⟨"h", "o/r"⟩], none, false⟩ failKind
      = .ok ⟨0, 0, 1, 0⟩ :=
  ((C1_modifyMetrics_counts ⟨0, 0, 0, 0⟩ [⟨"h", "o/r"⟩] none false (by decide)
      (by decide)).2.2.1 JobUpdate).trans (by rfl)

/-- C2: once a received job's `Process` has run to completion (no immediate
cancellation), the worker reports exactly one metrics event for it —
`Fail(job)` exactly when `Process` returned a non-nil error, `Success(job)`
exactly when it returned nil. -/
theorem C2_worker_reports_exactly_one (job : Job) :
    consumeJobReport job none = [.success job] ∧
    (∀ msg, consumeJobReport job (some msg) = [.fail job]) ∧
    (∀ processErr : Option String, (consumeJobReport job processErr).length = 1) ∧
    (∀ processErr : Option String,
      (WorkerEvent.success job ∈ consumeJobReport job processErr ↔ processErr = none) ∧
      (WorkerEvent.fail job ∈ consumeJobReport job processErr ↔ processErr ≠ none)) := by
  refine ⟨rfl, fun msg => rfl, fun pe => ?_, fun pe => ?_⟩
  · cases pe <;> rfl
  · cases pe <;> simp [consumeJobReport]

/-- Witness for C2: a nil process result reports a single Success event. -/
theorem C2_worker_reports_exactly_one_witness :
    consumeJobReport ⟨JobDownload, [], none, false⟩ none
      = [.success ⟨JobDownload, [], none, false⟩] :=
  (C2_worker_reports_exactly_one ⟨JobDownload, [], none, false⟩).1

/-- C3: the flush decision after absorbing an event is true iff the batch
counter has reached `BatchSize`, or `SyncTime` has elapsed since the last
flush and the batch counter is positive; with `BatchSize = 1` the check
after any absorbed event (which makes the counter `b + 1`) flushes. -/
theorem C3_sendMetric_flush (bs st b e : Nat) :
    (sendMetric bs st b e = true ↔ (bs ≤ b ∨ (st ≤ e ∧ 0 < b))) ∧
    sendMetric 1 st (b + 1) e = true := by
  constructor
  · simp [sendMetric]
  · simp [sendMetric]

/-- Witness for C3: with batch size 1 an absorbed event always flushes. -/
theorem C3_sendMetric_flush_witness : sendMetric 1 30 (0 + 1) 0 = true :=
  (C3_sendMetric_flush 1 30 0 0).2

/-- C4 (code bug): `triageJob` does not partition a multi-organization
job's endpoints. Because `j = &(*lj)` aliases the original job, the loop
resets the one shared endpoint slice whenever it meets a new organization.
On a job with endpoints in organizations `orga` and `orgb`, the code
leaves both map entries aliasing a job whose endpoint list is only the
`orgb` endpoint, whereas the specified partition gives `orga` exactly its
own endpoint; the union of the produced lists loses the `orga` endpoint. -/
theorem C4_triageJob_aliasing_bug :
    triageJob [⟨"github.com", "orga/r1"⟩, ⟨"github.com", "orgb/r2"⟩]
      = ⟨["orga", "orgb"], [⟨"github.com", "orgb/r2"⟩]⟩ ∧
    triageJobSpec "orga" [⟨"github.com", "orga/r1"⟩, ⟨"github.com", "orgb/r2"⟩]
      = [⟨"github.com", "orga/r1"⟩] ∧
    ([⟨"github.com", "orgb/r2"⟩] : List Endpoint) ≠ [⟨"github.com", "orga/r1"⟩] := by
  refine ⟨by decide, by decide, by decide⟩

/-- C5: when the repository of a Download job is already in the library,
`Download` either rewrites the job (setting its location id to the
existing repository's location) and returns the result of
`updater.Update` on the rewritten job — when the `Update` flag
(`allowUpdate`) is set — or returns `ErrRepoAlreadyExists`; in both
branches the library is returned unmodified. -/
theorem C5_Download_existing
    (updateFn : Job → Option DownloadErr)
    (dlRepo : SivaLibrary → String → Option DownloadErr × SivaLibrary)
    (lib : SivaLibrary) (job : Job) (endpoint : Endpoint) (rest : List Endpoint)
    (locID : String)
    (htype : job.type = JobDownload)
    (hep : job.endpoints = endpoint :: rest)
    (hhas : libHas lib (NewRepositoryID endpoint) = some locID) :
    Download updateFn dlRepo lib job
      = (if job.allowUpdate then
           updateFn { job with type := JobUpdate, locationID := some locID }
         else some (.errRepoAlreadyExists (NewRepositoryID endpoint)), lib) := by
  unfold Download
  rw [if_neg (by simp [htype])]
  rw [hep]
  simp only [hhas]
  cases h : job.allowUpdate <;> simp [h]

/-- Witness for C5: a job whose repository is already stored, with the
update flag set, is handed to the updater and the library is untouched. -/
theorem C5_Download_existing_witness :
    Download (fun _ => some (.updateErr "u")) (fun l _ => (none, l))
        ⟨[("github.com/acme/repo", "loc1")]⟩
        ⟨JobDownload, [⟨"github.com", "acme/repo"⟩], none, true⟩
      = (some (.updateErr "u"), ⟨[("github.com/acme/repo", "loc1")]⟩) :=
  (C5_Download_existing (fun _ => some (.updateErr "u")) (fun l _ => (none, l))
      ⟨[("github.com/acme/repo", "loc1")]⟩
      ⟨JobDownload, [⟨"github.com", "acme/repo"⟩], none, true⟩
      ⟨"github.com", "acme/repo"⟩ [] "loc1" rfl rfl (by rfl)).trans (by rfl)

theorem toNat_max_zero (n : Int) : (max 0 n).toNat = n.toNat := by
  rcases le_total 0 n with h | h
  · rw [max_eq_right h]
  · rw [max_eq_left h]
    omega

/-- C8: `SetWorkers n` resizes the pool to `max 0 n` workers — a negative
request is clamped to zero, growing spawns exactly the difference in new
workers, shrinking signals exactly the difference of the existing workers
to stop (and only existing ones) — so that a subsequent `Size` returns
`max 0 n`. -/
theorem C8_SetWorkers_resize (p : WorkerPool) (n : Int) :
    (p.SetWorkers n).pool.Size = (max 0 n).toNat ∧
    (p.SetWorkers n).spawned = (max 0 n).toNat - p.Size ∧
    (p.SetWorkers n).stopped.length = p.Size - (max 0 n).toNat ∧
    (∀ w ∈ (p.SetWorkers n).stopped, w ∈ p.workers) := by
  have hm : (if n < 0 then 0 else n.toNat) = (max 0 n).toNat := by
    rw [toNat_max_zero]
    split <;> omega
  unfold WorkerPool.SetWorkers WorkerPool.Size
  rw [hm]
  generalize (max 0 n).toNat = m
  by_cases h1 : m = p.workers.length
  · rw [if_pos h1]
    refine ⟨h1.symm, ?_, ?_, ?_⟩
    · show (0 : Nat) = m - p.workers.length
      omega
    · show ([] : List Nat).length = p.workers.length - m
      simp only [List.length_nil]
      omega
    · intro w hw
      simp at hw
  · rw [if_neg h1]
    by_cases h2 : p.workers.length < m
    · rw [if_pos h2]
      refine ⟨?_, rfl, ?_, ?_⟩
      · show (p.add (m - p.workers.length)).workers.length = m
        unfold WorkerPool.add
        simp only [List.length_append, List.length_map, List.length_range]
        omega
      · show ([] : List Nat).length = p.workers.length - m
        simp only [List.length_nil]
        omega
      · intro w hw
        simp at hw
    · rw [if_neg h2]
      refine ⟨?_, ?_, ?_, ?_⟩
      · show (p.workers.take (p.workers.length - (p.workers.length - m))).length = m
        simp only [List.length_take]
        omega
      · show (0 : Nat) = m - p.workers.length
        omega
      · show (p.workers.drop (p.workers.length - (p.workers.length - m))).length
            = p.workers.length - m
        simp only [List.length_drop]
        omega
      · intro w hw
        exact List.drop_subset _ _ hw

/-- Witness for C8: shrinking a three-worker pool to one worker. -/
theorem C8_SetWorkers_resize_witness :
    (WorkerPool.SetWorkers ⟨[0, 1, 2], 3⟩ 1).pool.Size = (max 0 (1 : Int)).toNat :=
  (C8_SetWorkers_resize ⟨[0, 1, 2], 3⟩ 1).1

/-- C6 counterexample: the code does not key the checkpoint on
`nextPage == 0`, and never clears it. With a full page (`len = PerPage`)
and `nextPage = 0`, the checkpoint stays `0` instead of becoming the page
length 2 (the code advances the page instead); and with a non-zero
`nextPage` arriving while the checkpoint is `1`, the checkpoint stays `1`
instead of being cleared. -/
theorem C6_requestRepos_counterexample :
    ¬ (requestRepos ⟨1, 2, 0⟩ [10, 11] 0).state.checkpoint = 2 ∧
    ¬ (requestRepos ⟨1, 2, 1⟩ [10, 11] 3).state.checkpoint = 0 := by
  refine ⟨by decide, by decide⟩

/-- C6 (amended): `requestRepos` sets the checkpoint to the page length
exactly when the fetched page is shorter than `PerPage` (leaving it
unchanged otherwise, also when `nextPage` is non-zero — it is never
cleared); on `nextPage = 0` it keeps the page number unless the page was
exactly full, in which case it advances by one, and it reports
no-new-repositories; on non-zero `nextPage` it jumps to that page; the
buffered records are those past the checkpoint prefix (the whole page when
the page is shorter than the checkpoint); consequently after a short last
page the next call on the same, possibly grown, page yields exactly the
records past the already-yielded prefix. -/
theorem C6_requestRepos_pagination (st : IterState) (repos extra : List Nat)
    (nextPage : Nat) :
    ((requestRepos st repos nextPage).state.checkpoint
        = if repos.length < st.perPage then repos.length else st.checkpoint) ∧
    ((requestRepos st repos nextPage).state.page
        = if nextPage = 0 then
            (if repos.length = st.perPage then st.page + 1 else st.page)
          else nextPage) ∧
    ((requestRepos st repos nextPage).state.perPage = st.perPage) ∧
    ((requestRepos st repos nextPage).noNewRepos = decide (nextPage = 0)) ∧
    (st.checkpoint ≤ repos.length →
        (requestRepos st repos nextPage).buffered = repos.drop st.checkpoint) ∧
    (repos.length < st.checkpoint → (requestRepos st repos nextPage).buffered = repos) ∧
    (repos.length < st.perPage →
        (requestRepos (requestRepos st repos 0).state (repos ++ extra) nextPage).buffered
          = extra) := by
  refine ⟨?_, ?_, ?_, ?_, ?_, ?_, ?_⟩
  · unfold requestRepos
    by_cases h : nextPage = 0 <;> simp [h]
  · unfold requestRepos
    by_cases h : nextPage = 0 <;> simp [h]
  · unfold requestRepos
    by_cases h : nextPage = 0 <;> simp [h]
  · unfold requestRepos
    by_cases h : nextPage = 0 <;> simp [h]
  · intro hck
    unfold requestRepos
    by_cases h : nextPage = 0 <;>
      by_cases hc : 0 < st.checkpoint <;>
      simp [h, hc, Nat.not_lt.mpr hck, Nat.eq_zero_of_not_pos]
  · intro hlt
    unfold requestRepos
    have hc : 0 < st.checkpoint := by omega
    by_cases h : nextPage = 0 <;> simp [h, hc, hlt]
  · intro hshort
    unfold requestRepos
    by_cases h : nextPage = 0 <;>
      simp only [if_pos hshort, if_pos rfl, decide_eq_true_eq] <;>
      by_cases hz : 0 < repos.length
    · have hnlt : ¬ repos.length + extra.length < repos.length := by omega
      simp [h, hz, List.length_append, hnlt, List.drop_left]
    · have h0 : repos = [] := by
        cases repos with
        | nil => rfl
        | cons a t => simp at hz
      simp [h, h0]
    · have hnlt : ¬ repos.length + extra.length < repos.length := by omega
      simp [h, hz, List.length_append, hnlt, List.drop_left]
    · have h0 : repos = [] := by
        cases repos with
        | nil => rfl
        | cons a t => simp at hz
      simp [h, h0]

/-- Witness for C6: a short last page of one record, regrown by two
records, yields exactly the two new records on the next call. -/
theorem C6_requestRepos_pagination_witness :
    (requestRepos (requestRepos ⟨1, 5, 0⟩ [7] 0).state ([7] ++ [8, 9]) 0).buffered
      = [8, 9] :=
  (C6_requestRepos_pagination ⟨1, 5, 0⟩ [7] [8, 9] 0).2.2.2.2.2.2 (by decide)

/-- C7 counterexample: in the unreliable-clock fallback (here the reset
window is two hours away, above the one-hour cap) the code divides one
hour by `limit + 1`, not by `limit`: with `limit = 1` it returns 1800
seconds where the claim demands 3600. -/
theorem C7_timeToRetry_counterexample :
    timeToRetry 0 7200 0 1 = 1800000000000 ∧
    timeToRetry 0 7200 0 1 ≠ hourNs.toNat / 1 := by
  refine ⟨by decide, by decide⟩

/-- C7 (amended): the wait is `(resetEpoch − nowEpoch)` (in nanoseconds)
divided by `remaining + 1`; when that window is negative or exceeds one
hour, it is instead one hour divided by `limit + 1` (not by `limit`). -/
theorem C7_timeToRetry_wait (now resetTime : Int) (remaining limit : Nat) :
    (0 ≤ (resetTime - now) * (nanosPerSecond : Int) →
      (resetTime - now) * (nanosPerSecond : Int) ≤ hourNs →
      timeToRetry now resetTime remaining limit
        = ((resetTime - now) * (nanosPerSecond : Int)).toNat / (remaining + 1)) ∧
    ((resetTime - now) * (nanosPerSecond : Int) < 0 ∨
        hourNs < (resetTime - now) * (nanosPerSecond : Int) →
      timeToRetry now resetTime remaining limit = hourNs.toNat / (limit + 1)) := by
  constructor
  · intro h1 h2
    unfold timeToRetry
    rw [if_neg]
    push_neg
    exact ⟨h1, h2⟩
  · intro h
    unfold timeToRetry
    rw [if_pos h]

/-- Witness for C7: ten minutes to reset with four requests remaining
waits two minutes. -/
theorem C7_timeToRetry_wait_witness : timeToRetry 0 600 4 10 = 120000000000 :=
  ((C7_timeToRetry_wait 0 600 4 10).1 (by decide) (by decide)).trans (by decide)

/-- C9 counterexample: a repository exposing all three URLs (the normal
case for the upstream API) yields a Download job with three endpoints on
the `GHProvider.Start` path, not one. -/
theorem C9_provider_job_counterexample :
    mkProviderJob ⟨"https://github.com/acme/repo", "git://github.com/acme/repo.git",
        "ssh://github.com/acme/repo", "acme/repo"⟩
      = .ok ⟨["https://github.com/acme/repo", "git://github.com/acme/repo.git",
          "ssh://github.com/acme/repo"]⟩ ∧
    (["https://github.com/acme/repo", "git://github.com/acme/repo.git",
        "ssh://github.com/acme/repo"] : List String).length ≠ 1 := by
  refine ⟨by rfl, by decide⟩

/-- C9 (amended): a Download job built by the `GHProvider.Start` discovery
path carries between one and three endpoints (the non-empty ones among the
repository's HTML, git and SSH URLs); a job built through `GetGHEndpoint`
(the advertisement path) carries exactly one. -/
theorem C9_download_job_endpoints (r : GHRepo) (job : DiscoveryJob) :
    (mkProviderJob r = .ok job →
      1 ≤ job.endpoints.length ∧ job.endpoints.length ≤ 3) ∧
    (mkAdvertiseJob r = .ok job → job.endpoints.length = 1) := by
  constructor
  · intro h
    unfold mkProviderJob getEndpoints at h
    set l := [r.htmlURL, r.gitURL, r.sshURL].filter (fun s => s ≠ "") with hldef
    by_cases hl : l.length < 1
    · rw [if_pos hl] at h
      exact absurd h (by simp [Except.map])
    · rw [if_neg hl] at h
      injection h with h2
      subst h2
      refine ⟨?_, ?_⟩
      · show 1 ≤ l.length
        omega
      · show l.length ≤ 3
        calc l.length ≤ ([r.htmlURL, r.gitURL, r.sshURL] : List String).length := by
              rw [hldef]
              exact List.length_filter_le _ _
          _ = 3 := rfl
  · intro h
    unfold mkAdvertiseJob GetGHEndpoint at h
    cases hf : [r.htmlURL, r.gitURL, r.sshURL].find? (fun s => s ≠ "") with
    | none =>
      rw [hf] at h
      simp [Except.map] at h
    | some ep =>
      rw [hf] at h
      injection h with h2
      subst h2
      rfl

/-- Witness for C9: a repository with only the HTML URL set yields a
one-endpoint job on the advertisement path. -/
theorem C9_download_job_endpoints_witness :
    (DiscoveryJob.mk ["https://github.com/acme/repo"]).endpoints.length = 1 :=
  (C9_download_job_endpoints ⟨"https://github.com/acme/repo", "", "", "acme/repo"⟩
      ⟨["https://github.com/acme/repo"]⟩).2 (by rfl)

theorem strEndsWith_append (x suf : String) : strEndsWith (x ++ suf) suf = true := by
  unfold strEndsWith
  rw [List.isSuffixOf_iff_suffix, String.data_append]
  exact List.suffix_append _ _

theorem trimSuffix_append (x suf : String) : trimSuffix (x ++ suf) suf = x := by
  unfold trimSuffix
  rw [strEndsWith_append]
  simp only [if_true, String.data_append, List.length_append, Nat.add_sub_cancel,
    List.take_left]

theorem strEndsWith_sep_concat (a b : String) (hb : strEndsWith b ".git" = false) :
    strEndsWith (a ++ "/" ++ b) ".git" = false := by
  rw [Bool.eq_false_iff]
  intro htrue
  rw [strEndsWith, List.isSuffixOf_iff_suffix] at htrue
  have hdata : (a ++ "/" ++ b).data = a.data ++ ('/' :: b.data) := by
    simp [List.append_assoc]
  rw [hdata] at htrue
  have hsuf2 : ('/' :: b.data) <:+ a.data ++ ('/' :: b.data) := List.suffix_append _ _
  rcases List.suffix_or_suffix_of_suffix htrue hsuf2 with hle | hge
  · rcases List.suffix_cons_iff.mp hle with heq | hsfx
    · have hhead : (".git".data : List Char).head? = some '/' := by
        rw [heq]
        rfl
      exact absurd hhead (by decide)
    · rw [strEndsWith, Bool.eq_false_iff] at hb
      exact hb (List.isSuffixOf_iff_suffix.mpr hsfx)
  · have hmem : '/' ∈ (".git".data : List Char) := hge.subset (List.mem_cons_self _ _)
    exact absurd hmem (by decide)

theorem NewRepositoryID_no_git (e : Endpoint) (h : strEndsWith e.path ".git" = false) :
    NewRepositoryID e = e.host ++ "/" ++ e.path := by
  unfold NewRepositoryID borgesNewRepositoryID
  rw [h]
  simp only [Bool.false_eq_true, if_false]
  rw [← String.append_assoc]
  exact trimSuffix_append _ _

/-- C10 (amended): for endpoints whose path does not already end in
".git", `NewRepositoryID` normalizes the suffix — the returned id does not
end in ".git", the endpoint with ".git" appended yields the same id, and
hence the same organization in `GetOrgFromEndpoint` and the same
already-present lookup that `Download` performs. (For a path that already
ends in ".git" the normalization fails, see the counterexample.) -/
theorem C10_repositoryID_normalization (e : Endpoint)
    (h : strEndsWith e.path ".git" = false) :
    strEndsWith (NewRepositoryID e) ".git" = false ∧
    NewRepositoryID { e with path := e.path ++ ".git" } = NewRepositoryID e ∧
    GetOrgFromEndpoint { e with path := e.path ++ ".git" } = GetOrgFromEndpoint e ∧
    (∀ lib : SivaLibrary,
      libHas lib (NewRepositoryID { e with path := e.path ++ ".git" })
        = libHas lib (NewRepositoryID e)) := by
  have hid : NewRepositoryID e = e.host ++ "/" ++ e.path := NewRepositoryID_no_git e h
  have hgit : strEndsWith (e.path ++ ".git") ".git" = true := strEndsWith_append _ _
  have hid2 : NewRepositoryID { e with path := e.path ++ ".git" }
      = e.host ++ "/" ++ e.path := by
    unfold NewRepositoryID borgesNewRepositoryID
    simp only [hgit, if_true]
    rw [← String.append_assoc]
    exact trimSuffix_append _ _
  refine ⟨?_, ?_, ?_, ?_⟩
  · rw [hid]
    exact strEndsWith_sep_concat e.host e.path h
  · rw [hid2, hid]
  · unfold GetOrgFromEndpoint
    rw [hid2, hid]
  · intro lib
    rw [hid2, hid]

/-- C10 counterexample: `TrimSuffix` removes a single ".git" copy, so the
claim's universal statements fail on a path that already ends in ".git":
the id of `host/acme/repo.git.git` still ends in ".git", and the endpoints
`host/acme/repo.git` and `host/acme/repo.git.git` — differing only by a
trailing ".git" — get different ids. -/
theorem C10_repositoryID_counterexample :
    strEndsWith (NewRepositoryID ⟨"github.com", "acme/repo.git.git"⟩) ".git" = true ∧
    NewRepositoryID ⟨"github.com", "acme/repo.git"⟩
      ≠ NewRepositoryID ⟨"github.com", "acme/repo.git.git"⟩ := by
  refine ⟨by decide, by decide⟩

/-- Witness for C10: `acme/repo.git` and `acme/repo` yield the same id. -/
theorem C10_repositoryID_normalization_witness :
    NewRepositoryID ⟨"github.com", "acme/repo.git"⟩
      = NewRepositoryID ⟨"github.com", "acme/repo"⟩ :=
  (C10_repositoryID_normalization ⟨"github.com", "acme/repo"⟩ (by decide)).2.1
